import Mathlib

/-!
Verification of the position and order-lifecycle engine of a trading bot
for short-lived binary-outcome markets.

The embedding models JavaScript numbers by exact rationals (`ℚ`),
JavaScript `Map`s by association lists in insertion order, and timestamps
(milliseconds or seconds) by rationals.  `Math.floor` is `Int.floor`,
`Math.min`/`Math.max` are `min`/`max` on `ℚ`.  Each definition cites the
source location it is translated from.
-/

namespace PolymarketBot

/-- Outcome direction of a binary market token (`"up" | "down"`,
`src/unnamed/part_008`, interface `Position`). -/
inductive Side where
  | up
  | down
deriving DecidableEq, Repr

/-- `Position` record of the Scalp position tracker
(`src/unnamed/part_008`, lines 11–19). -/
structure Position where
  tokenId : String
  side : Side
  avgPrice : ℚ
  size : ℚ
  costBasis : ℚ
  marketSlug : String
  entryTime : ℚ
deriving DecidableEq, Repr

/-- `ScalpConfig` (`src/unnamed/part_008`, lines 30–36). -/
structure ScalpConfig where
  profitTarget : ℚ
  stopLoss : ℚ
  maxHoldMs : ℚ
  maxPositionPerMarket : ℚ
  maxTradesPerWindow : ℕ
deriving DecidableEq, Repr

/-- One top-of-book bid quote, `{ price, size }` as consumed by
`checkScalpExit` (`src/unnamed/part_008`, line 109). -/
structure BidQuote where
  price : ℚ
  size : ℚ
deriving DecidableEq, Repr

/-- The payload of a `SellSignal` (`src/unnamed/part_008`, lines 21–28).
The constant fields `type: "stop_loss"` and `side: "SELL"` are omitted;
the human-readable `reason` string is modelled by the `ExitReason`
value paired with the signal. -/
structure SellSignal where
  tokenId : String
  price : ℚ
  size : ℚ
deriving DecidableEq, Repr

/-- Which of the three exit branches of `checkScalpExit` produced a
signal (`src/unnamed/part_008`: take-profit lines 127–137, stop-loss
lines 140–149, time-stop lines 153–163). -/
inductive ExitReason where
  | takeProfit
  | stopLossHit
  | timeStop
deriving DecidableEq, Repr

/-- `Map.get`: first binding of a key in an association list. -/
def lookupKey {α : Type} (l : List (String × α)) (k : String) : Option α :=
  match l with
  | [] => none
  | (k2, v) :: rest => if k2 = k then some v else lookupKey rest k

/-- `Map.set`: replace the binding of `k` in place, or append it. -/
def setKey {α : Type} (l : List (String × α)) (k : String) (v : α) :
    List (String × α) :=
  match l with
  | [] => [(k, v)]
  | (k2, v2) :: rest =>
    if k2 = k then (k, v) :: rest else (k2, v2) :: setKey rest k v

/-- `Map.delete`: remove the first binding of `k`. -/
def eraseKey {α : Type} (l : List (String × α)) (k : String) :
    List (String × α) :=
  match l with
  | [] => []
  | (k2, v) :: rest => if k2 = k then rest else (k2, v) :: eraseKey rest k

/-- The mutable state owned by `PositionTracker`
(`src/unnamed/part_008`, lines 38–43): `positions` keyed by token id,
`marketSpend` and `windowTradeCount` keyed by market slug. -/
structure TrackerState where
  positions : List (String × Position)
  marketSpend : List (String × ℚ)
  windowTradeCount : List (String × ℕ)
deriving DecidableEq, Repr

/-- Empty tracker, the constructor state (`src/unnamed/part_008`, line 43). -/
def emptyTracker : TrackerState := ⟨[], [], []⟩

/-- Per-token effect of `recordBuy` on the position map
(`src/unnamed/part_008`, lines 52–71): merge into an existing position
recomputing the weighted average, or create a new one. -/
def recordBuyPos (now : ℚ) (tokenId : String) (side : Side) (price size : ℚ)
    (slug : String) : Option Position → Position
  | some existing =>
    let totalSize := existing.size + size
    let totalCost := existing.costBasis + price * size
    { existing with
        avgPrice := totalCost / totalSize
        size := totalSize
        costBasis := totalCost }
  | none =>
    { tokenId := tokenId, side := side, avgPrice := price, size := size
      costBasis := price * size, marketSlug := slug, entryTime := now }

/-- `PositionTracker.recordBuy` (`src/unnamed/part_008`, lines 45–78). -/
def TrackerState.recordBuy (st : TrackerState) (now : ℚ) (tokenId : String)
    (side : Side) (price size : ℚ) (slug : String) : TrackerState :=
  { positions := setKey st.positions tokenId
      (recordBuyPos now tokenId side price size slug
        (lookupKey st.positions tokenId))
    marketSpend := setKey st.marketSpend slug
      ((lookupKey st.marketSpend slug).getD 0 + price * size)
    windowTradeCount := setKey st.windowTradeCount slug
      ((lookupKey st.windowTradeCount slug).getD 0 + 1) }

/-- `PositionTracker.canBuy` (`src/unnamed/part_008`, lines 80–90). -/
def TrackerState.canBuy (st : TrackerState) (cfg : ScalpConfig) (slug : String)
    (additionalCostUsd : ℚ) : Bool :=
  let currentSpend := (lookupKey st.marketSpend slug).getD 0
  if cfg.maxPositionPerMarket < currentSpend + additionalCostUsd then false
  else
    let tradeCount := (lookupKey st.windowTradeCount slug).getD 0
    if cfg.maxTradesPerWindow ≤ tradeCount then false
    else true

/-- `PositionTracker.hasOpenPosition` (`src/unnamed/part_008`, lines 96–98):
`positions.size > 0`. -/
def TrackerState.hasOpenPosition (st : TrackerState) : Bool :=
  !st.positions.isEmpty

/-- `PositionTracker.recordSell` (`src/unnamed/part_008`, lines 177–184):
subtract the sold size; delete the position once its size is `≤ 0.01`. -/
def TrackerState.recordSell (st : TrackerState) (tokenId : String) (size : ℚ) :
    TrackerState :=
  match lookupKey st.positions tokenId with
  | none => st
  | some pos =>
    let newSize := pos.size - size
    if newSize ≤ 1 / 100 then
      { st with positions := eraseKey st.positions tokenId }
    else
      let newPos := { pos with size := newSize }
      { st with positions := setKey st.positions tokenId newPos }

/-- Body of the `checkScalpExit` loop for one position
(`src/unnamed/part_008`, lines 114–164).  Returns the signal pushed for
this position, if any, tagged with the branch that produced it; `none`
models `continue` without a push.  The three `continue` statements after
each push make at most one signal per position, so an `Option` result is
exact. -/
def checkScalpExitPos (cfg : ScalpConfig) (now : ℚ) (tokenId : String)
    (pos : Position) (bestBid : Option BidQuote) :
    Option (ExitReason × SellSignal) :=
  match bestBid with
  | none => none
  | some b =>
    if b.price ≤ 1 / 100 then none
    else
      let holdMs := now - pos.entryTime
      let pnlPerShare := b.price - pos.avgPrice
      let rawSize := min pos.size b.size
      let sellSize : ℚ := if 5 ≤ rawSize then ((⌊rawSize⌋ : ℤ) : ℚ) else 0
      if sellSize < 5 then none
      else if cfg.profitTarget ≤ pnlPerShare then
        some (ExitReason.takeProfit, ⟨tokenId, b.price, sellSize⟩)
      else if pnlPerShare ≤ -cfg.stopLoss then
        some (ExitReason.stopLossHit, ⟨tokenId, b.price, sellSize⟩)
      else if cfg.maxHoldMs ≤ holdMs then
        some (ExitReason.timeStop, ⟨tokenId, b.price, sellSize⟩)
      else none

/-- `PositionTracker.checkScalpExit` (`src/unnamed/part_008`,
lines 108–168): iterate all positions against the current best bids. -/
def TrackerState.checkScalpExit (st : TrackerState) (cfg : ScalpConfig)
    (now : ℚ) (currentBids : List (String × BidQuote)) :
    List (ExitReason × SellSignal) :=
  st.positions.filterMap
    (fun tp => checkScalpExitPos cfg now tp.1 tp.2 (lookupKey currentBids tp.1))

/-- A sequence of `recordBuy` calls for the same token id
(`src/unnamed/part_008`, `recordBuy`), each fill given as
(price, size). -/
def applyBuys (st : TrackerState) (now : ℚ) (tokenId : String) (side : Side)
    (slug : String) (fills : List (ℚ × ℚ)) : TrackerState :=
  fills.foldl (fun s f => s.recordBuy now tokenId side f.1 f.2 slug) st

/-- A pending (submitted, not yet confirmed filled) order: the values of
the 98C runner's `pendingByKey` map (src/src/runner.ts lines 759–762). -/
structure PendingOrder where
  orderId : String
  tokenId : String
  side : Side
  size : ℚ
  price : ℚ
  slug : String
  placedAt : ℚ
  marketEndMs : ℚ
deriving DecidableEq, Repr

/-- A new-order intent produced by the entry phase (the argument of
`executeSignal`, src/src/runner.ts lines 1096 and 1115). -/
structure OrderIntent where
  tokenId : String
  side : Side
  price : ℚ
  size : ℚ
deriving DecidableEq, Repr

/-- Result of the per-market entry phase: tracker state, pending-order
map and the order intents submitted this cycle. -/
structure EntryDecision where
  tracker : TrackerState
  pending : List (String × PendingOrder)
  intents : List OrderIntent
deriving DecidableEq, Repr

/-- `inBand` (src/src/runner.ts line 1025).  `Number.isFinite` holds of
every rational, so only the two bounds remain. -/
def inBand (p low high : ℚ) : Bool :=
  decide (low ≤ p) && decide (p ≤ high)

/-- `pickPrice` (src/src/runner.ts lines 1026–1035): first configured
price whose band contains the best ask or the best bid; prices `≥ 0.99`
use the `[0.985, 0.9999]` band, lower ones the `[0.978, 0.984]` band. -/
def pickPrice (orderPrices : List ℚ) (ask bid : ℚ) : Option ℚ :=
  match orderPrices with
  | [] => none
  | pr :: rest =>
    if 99 / 100 ≤ pr then
      if inBand ask (985 / 1000) (9999 / 10000) ||
          inBand bid (985 / 1000) (9999 / 10000) then some pr
      else pickPrice rest ask bid
    else
      if inBand ask (978 / 1000) (984 / 1000) ||
          inBand bid (978 / 1000) (984 / 1000) then some pr
      else pickPrice rest ask bid

/-- `nearTarget` (src/src/runner.ts lines 1011–1013): the quote is
within $15 of a target price, scaled by the risk size.  (In the source
this closure reads `orderPrices` before the `const` that declares it;
the intended list is the parameter here.) -/
def nearTarget (orderPrices : List ℚ) (riskSize ask : ℚ) : Bool :=
  orderPrices.any (fun tp => decide (|ask - tp| * riskSize < 15))

/-- Fill outcomes of reconciling a pending order against the
venue-reported matched size (spec §4.4 names them none /
partial_tradable / full). -/
inductive FillOutcome where
  | noFill
  | partTradableFill
  | fullFill
deriving DecidableEq, Repr

/-- Classification used by the reconciliation loop
(src/src/runner.ts lines 1042–1045): the `matched ≥ 5` gate is tested
first (`continue` when it fails), and only then does
`matched ≥ 0.99 * requested` distinguish full from partial. -/
def classifyFill (matched requested : ℚ) : FillOutcome :=
  if ¬ (5 ≤ matched) then FillOutcome.noFill
  else if requested * (99 / 100) ≤ matched then FillOutcome.fullFill
  else FillOutcome.partTradableFill

/-- The classification as claim C5 states it: full whenever the matched
size reaches 99% of the requested size, partial_tradable when matched is
at least 5 units but below full, none otherwise.  Stated from the claim
for comparison with `classifyFill`, which is translated from the
source. -/
def classifyFillClaimed (matched requested : ℚ) : FillOutcome :=
  if requested * (99 / 100) ≤ matched then FillOutcome.fullFill
  else if 5 ≤ matched then FillOutcome.partTradableFill
  else FillOutcome.noFill

/-- First pending order of the given market whose matched size is
tradable (src/src/runner.ts lines 1039–1045: entries of other markets
and entries with `matched < 5` are skipped by `continue`). -/
def findTradable (pending : List (String × PendingOrder)) (slug : String)
    (matchedOf : String → ℚ) : Option PendingOrder :=
  match pending with
  | [] => none
  | (_, p) :: rest =>
    if p.slug = slug then
      if 5 ≤ matchedOf p.orderId then some p
      else findTradable rest slug matchedOf
    else findTradable rest slug matchedOf

/-- Effect of the reconciliation loop (src/src/runner.ts lines
1039–1067) on tracker and pending map: the first same-market pending
order with `matched ≥ 5` is promoted via `recordBuy` — with the
requested size when `matched ≥ 0.99 * requested`, else `⌊matched⌋` —
every pending order of that market is cancelled and removed, and the
loop breaks; with no such order nothing changes. -/
def reconcileLoop (st : TrackerState) (now : ℚ)
    (pending : List (String × PendingOrder)) (slug : String)
    (matchedOf : String → ℚ) :
    TrackerState × List (String × PendingOrder) :=
  match findTradable pending slug matchedOf with
  | none => (st, pending)
  | some p =>
    let matched := matchedOf p.orderId
    let buySize := if p.size * (99 / 100) ≤ matched then p.size
                   else ((⌊matched⌋ : ℤ) : ℚ)
    (st.recordBuy now p.tokenId p.side p.price buySize p.slug,
     pending.filter (fun kp => decide (kp.2.slug ≠ slug)))

/-- `hasPendingForSlug` (src/src/runner.ts lines 1072–1073); keys are
built as `slug:side:price`, so the `startsWith` test is membership of
the market's slug. -/
def hasPendingForSlug (pending : List (String × PendingOrder))
    (slug : String) : Bool :=
  pending.any (fun kp => decide (kp.2.slug = slug))

/-- Rendering of a side in pending-order keys (src/src/runner.ts
lines 1089 and 1108). -/
def sideName : Side → String
  | Side.up => "up"
  | Side.down => "down"

/-- Key of a pending order: `slug:side:price`
(src/src/runner.ts lines 1089 and 1108). -/
def pendKey (slug : String) (side : Side) (pr : ℚ) : String :=
  slug ++ ":" ++ sideName side ++ ":" ++ toString pr

/-- Guarded placement of one band order (src/src/runner.ts lines
1087–1124): skipped when the key is already pending, when the notional
is below $1, or when `canBuy` rejects; otherwise the intent is submitted
and, on submission success, registered as pending. -/
def tryPlace (cfg : ScalpConfig) (st : TrackerState)
    (pending : List (String × PendingOrder)) (slug tokenId : String)
    (side : Side) (pr orderShares now endMs : ℚ) (submitOk : Bool)
    (newOrderId : String) : EntryDecision :=
  let cost := pr * orderShares
  let key := pendKey slug side pr
  if (lookupKey pending key).isSome then ⟨st, pending, []⟩
  else if cost < 1 then ⟨st, pending, []⟩
  else if ¬ st.canBuy cfg slug cost then ⟨st, pending, []⟩
  else if submitOk then
    ⟨st,
     setKey pending key ⟨newOrderId, tokenId, side, orderShares, pr, slug, now, endMs⟩,
     [⟨tokenId, side, pr, orderShares⟩]⟩
  else ⟨st, pending, [⟨tokenId, side, pr, orderShares⟩]⟩

/-- The per-market entry phase of the 98C `runOnce`
(src/src/runner.ts lines 995–1124): the `hasOpenPosition` guard
(line 996), the last-15-seconds guard (line 1008), the price-distance
risk filter (lines 1011–1017), reconciliation of this market's pending
orders (lines 1039–1067), a second `hasOpenPosition` guard (line 1069),
the any-pending-order-for-this-market guard (lines 1072–1073), and
band-matched placement, Up before Down (lines 1076–1124).  `matchedOf`
is the venue-reported matched size per order id; `submitOk` and
`newOrderId` model the submission outcome. -/
def entryPhase98C (cfg : ScalpConfig) (st : TrackerState)
    (pending : List (String × PendingOrder))
    (slug yesTokenId noTokenId : String)
    (secsLeft upAsk upBid downAsk downBid : ℚ) (rawOrderPrices : List ℚ)
    (orderSizeShares : ℚ) (now endMs : ℚ) (matchedOf : String → ℚ)
    (submitOk : Bool) (newOrderId : String) : EntryDecision :=
  if st.hasOpenPosition then ⟨st, pending, []⟩
  else if secsLeft ≤ 15 then ⟨st, pending, []⟩
  else
    let orderPrices := rawOrderPrices.filter (fun p => decide (98 / 100 ≤ p))
    let riskSize := max 15 ((⌊orderSizeShares⌋ : ℤ) : ℚ)
    if nearTarget orderPrices riskSize upAsk ||
        nearTarget orderPrices riskSize downAsk then ⟨st, pending, []⟩
    else
      let orderShares := max 5 ((⌊orderSizeShares⌋ : ℤ) : ℚ)
      match reconcileLoop st now pending slug matchedOf with
      | (st1, pending1) =>
        if st1.hasOpenPosition then ⟨st1, pending1, []⟩
        else if hasPendingForSlug pending1 slug then ⟨st1, pending1, []⟩
        else
          match pickPrice orderPrices upAsk upBid with
          | some pr =>
            tryPlace cfg st1 pending1 slug yesTokenId Side.up pr orderShares
              now endMs submitOk newOrderId
          | none =>
            match pickPrice orderPrices downAsk downBid with
            | some pr =>
              tryPlace cfg st1 pending1 slug noTokenId Side.down pr orderShares
                now endMs submitOk newOrderId
            | none => ⟨st1, pending1, []⟩

/-- Exit handling once the sell retry budget is exhausted (98C runner,
src/src/runner.ts lines 986–992): `recordSell` is invoked with the
signalled size on success and on failure alike. -/
def exitHandleStep (st : TrackerState) (sig : SellSignal) (sold : Bool) :
    TrackerState :=
  if sold then st.recordSell sig.tokenId sig.size
  else st.recordSell sig.tokenId sig.size

/-- Market-active test of the 5-minute market scan
(src/unnamed/part_002, lines 344–345): a market is in the active window
iff `slotStart ≤ now < slotEnd`; it leaves the active set only once its
window has ended. -/
def marketInWindow (nowSec slotStart slotEnd : ℚ) : Bool :=
  decide (slotStart ≤ nowSec) && decide (nowSec < slotEnd)

/-- Round-end cancellation pass (src/src/runner.ts lines 912–933): each
pending order whose market has left the active set is cancelled at the
venue and removed from `pendingByKey`; nothing else is removed.  The
`marketEndMs` stored on the pending order is never consulted. -/
def cancelRoundEndPendings (pending : List (String × PendingOrder))
    (activeSlugs : List String) : List (String × PendingOrder) :=
  pending.filter (fun kp => decide (kp.2.slug ∈ activeSlugs))

/-- `DUAL_EXCHANGE_DIVERGENCE_THRESHOLD` (src/unnamed/part_000,
line 268): the documented dual-exchange divergence limit in dollars. -/
def DUAL_EXCHANGE_DIVERGENCE_THRESHOLD : ℚ := 8

/-- `MIN_BTC_DEVIATION` of the v4/v5 runner (src/src/runner.ts
line 82). -/
def MIN_BTC_DEVIATION : ℚ := 40

/-- `ensureMinCost` (src/src/runner.ts lines 1728–1731). -/
def ensureMinCost (price minSize : ℚ) : ℚ :=
  if price * minSize < 1 then ((⌈1 / price⌉ : ℤ) : ℚ) else minSize

/-- Inputs of one v5 entry evaluation for a market, as visible at the
gate chain (src/src/runner.ts lines 1663–1758).  `binanceBtcPrice` is
the secondary reference price kept by `src/unnamed/part_000`
(`getBinanceBtcPrice`), carried here so that the gates' independence
from it can be stated. -/
structure EntryGateInputs where
  hasOpen : Bool
  secsLeft : ℚ
  inLossCooldown : Bool
  inBalanceCooldown : Bool
  btcChoppy : Bool
  winnerBid : ℚ
  trendMinBid : ℚ
  btcAgrees : Bool
  btcAbsDiff : ℚ
  askPrice : ℚ
  askSize : ℚ
  orderSizeMax : ℚ
  usdcBalance : ℚ
  canBuyOk : Bool
  okxBtcPrice : ℚ
  binanceBtcPrice : Option ℚ
deriving DecidableEq, Repr

/-- Size chosen by the TREND entry (src/src/runner.ts lines
1739–1740). -/
def trendOrderSize (i : EntryGateInputs) : ℚ :=
  max (ensureMinCost i.askPrice 5) (min i.askSize i.orderSizeMax)

/-- The v5 TREND entry gate chain for one market (src/src/runner.ts
lines 1663–1758), as a predicate over the cycle inputs: open-position
guard (1664), last-15s guard (1671), loss-cooldown (1674–1680),
balance-cooldown (1683–1688), BTC-choppy veto (1717–1722), the TREND
conditions (1736), the ask band and minimum size (1742), the USDC
balance check (1745–1756), and `canBuy` with the $1 minimum notional
(1757). -/
def trendEntryApproved (i : EntryGateInputs) : Bool :=
  if i.hasOpen then false
  else if i.secsLeft ≤ 15 then false
  else if i.inLossCooldown then false
  else if i.inBalanceCooldown then false
  else if i.btcChoppy then false
  else if ¬ (120 < i.secsLeft ∧ i.trendMinBid ≤ i.winnerBid ∧
             i.btcAgrees = true ∧ MIN_BTC_DEVIATION ≤ i.btcAbsDiff) then false
  else if ¬ (1 / 2 ≤ i.askPrice ∧ i.askPrice ≤ 3 / 4 ∧
             5 ≤ trendOrderSize i) then false
  else if i.usdcBalance < i.askPrice * trendOrderSize i then false
  else if i.canBuyOk = true ∧ 1 ≤ i.askPrice * trendOrderSize i then true
  else false

/-- A concrete cycle snapshot in which the OKX and Binance reference
prices diverge by $20 while every entry gate passes. -/
def divergedInputs : EntryGateInputs :=
  { hasOpen := false, secsLeft := 200, inLossCooldown := false
    inBalanceCooldown := false, btcChoppy := false, winnerBid := 7 / 10
    trendMinBid := 13 / 20, btcAgrees := true, btcAbsDiff := 50
    askPrice := 7 / 10, askSize := 50, orderSizeMax := 50
    usdcBalance := 1000, canBuyOk := true, okxBtcPrice := 100000
    binanceBtcPrice := some 100020 }

/-- Venue time-in-force values (src/src/api/clob.ts line 74). -/
inductive ClobOrderType where
  | GTC
  | FOK
  | FAK
  | GTD
deriving DecidableEq, Repr

/-- Order-type mapping inside `createAndPostOrder`
(src/src/api/clob.ts line 265): everything except `"GTD"` is submitted
to the venue as `OrderType.GTC`. -/
def clobSubmittedOrderType (t : ClobOrderType) : ClobOrderType :=
  match t with
  | ClobOrderType.GTD => ClobOrderType.GTD
  | _ => ClobOrderType.GTC

/-- `executeSignal` (src/src/execution/executor.ts, lines 14–19 and
74–81) accepts exactly four parameters and posts `stop_loss` (sell)
signals with the literal `"GTC"`; the fifth argument `useOrderType`
passed at the v5 `attemptSell` call site (src/src/runner.ts line 1485)
is dropped. -/
def executorSellOrderType : ClobOrderType := ClobOrderType.GTC

/-- `MAX_SELL_RETRIES` (src/src/runner.ts line 1464). -/
def MAX_SELL_RETRIES : ℕ := 3

/-- Order type the v5 sell retry loop intends per attempt
(src/src/runner.ts lines 1476–1477): FOK on the last attempt. -/
def intendedSellOrderType (attempt : ℕ) : ClobOrderType :=
  if attempt = MAX_SELL_RETRIES - 1 then ClobOrderType.FOK
  else ClobOrderType.GTC

/-- Price the v5 sell retry loop intends per attempt (src/src/runner.ts
line 1478): the last attempt steps down a further $0.03 with a $0.01
floor. -/
def intendedSellPrice (attempt : ℕ) (sellPrice : ℚ) : ℚ :=
  if attempt = MAX_SELL_RETRIES - 1 then max (1 / 100) (sellPrice - 3 / 100)
  else sellPrice

/-- Step-down applied to the resting price after a non-balance failure
(src/src/runner.ts line 1497). -/
def sellPriceStepDown (sellPrice : ℚ) : ℚ :=
  max (1 / 100) (sellPrice - 1 / 100)

/-- The time-in-force that actually reaches the venue on any sell
attempt: the composition of the executor's hard-coded `"GTC"` with the
clob-layer mapping. -/
def submittedSellOrderType (_attempt : ℕ) : ClobOrderType :=
  clobSubmittedOrderType executorSellOrderType

/-- The 98C runner's tracker configuration (src/src/runner.ts lines
765–771): profit target $0.01, stop-loss disabled (999), hold cap
`Number.MAX_SAFE_INTEGER`. -/
def cfg98 : ScalpConfig := ⟨1 / 100, 999, 9007199254740991, 500, 10⟩

/-- A tracker holding one open position (for concrete instances). -/
def trackerWithPos : TrackerState :=
  ⟨[("tokOpen", ⟨"tokOpen", Side.up, 49 / 50, 20, 98 / 5, "mOpen", 0⟩)],
   [("mOpen", 98 / 5)], [("mOpen", 1)]⟩

/-- A 20-share position bought at $0.98. -/
def posC4 : Position := ⟨"tokC4", Side.up, 49 / 50, 20, 98 / 5, "mC4", 0⟩

/-- Tracker holding `posC4`. -/
def trackerC4 : TrackerState :=
  ⟨[("tokC4", posC4)], [("mC4", 98 / 5)], [("mC4", 1)]⟩

/-- The sell signal `checkScalpExit` emits for `posC4` against a
10-share best bid at $0.99. -/
def sigC4 : SellSignal := ⟨"tokC4", 99 / 100, 10⟩

/-- A 5-share pending order quoted at $0.98 on market `m`. -/
def pC5 : PendingOrder := ⟨"oid5", "tok5", Side.up, 5, 98 / 100, "m", 0, 300000⟩

/-- A 20-share pending order quoted at $0.98 on market `m`. -/
def pFull : PendingOrder :=
  ⟨"oidF", "tokF", Side.up, 20, 98 / 100, "m", 0, 300000⟩

/-- A pending order on market `m7`, placed with 20 s left on the market
clock (`placedAt` 280 s, market end 300 s). -/
def p7 : PendingOrder :=
  ⟨"oid7", "tok7", Side.up, 20, 98 / 100, "m7", 280000, 300000⟩

theorem lookupKey_setKey_self {α : Type} (l : List (String × α)) (k : String)
    (v : α) : lookupKey (setKey l k v) k = some v := by
  induction l with
  | nil => simp [setKey, lookupKey]
  | cons h t ih =>
    by_cases hk : h.1 = k
    · simp [setKey, hk, lookupKey]
    · simp [setKey, hk, lookupKey, ih]

theorem lookupKey_eq_none_of_forall {α : Type} (l : List (String × α))
    (k : String) (h : ∀ kv ∈ l, kv.1 ≠ k) : lookupKey l k = none := by
  induction l with
  | nil => simp [lookupKey]
  | cons hd t ih =>
    have h1 : ¬ hd.1 = k := h hd (List.mem_cons_self _ _)
    simp only [lookupKey, h1, if_false]
    exact ih (fun kv hkv => h kv (List.mem_cons_of_mem _ hkv))

theorem lookupKey_eraseKey_self {α : Type} (l : List (String × α))
    (k : String) (hnd : (l.map Prod.fst).Nodup) :
    lookupKey (eraseKey l k) k = none := by
  induction l with
  | nil => simp [eraseKey, lookupKey]
  | cons h t ih =>
    simp only [List.map_cons, List.nodup_cons] at hnd
    by_cases hk : h.1 = k
    · have ht : lookupKey t k = none := by
        apply lookupKey_eq_none_of_forall
        intro kv hkv hc
        exact hnd.1 (hk ▸ hc ▸ List.mem_map.mpr ⟨kv, hkv, rfl⟩)
      simp [eraseKey, hk, ht]
    · simp [eraseKey, hk, lookupKey, ih hnd.2]

theorem applyBuys_lookup_aux (now : ℚ) (tokenId : String) (side : Side)
    (slug : String) (fills : List (ℚ × ℚ)) :
    ∀ (st : TrackerState) (p : Position),
      lookupKey st.positions tokenId = some p →
      p.avgPrice = p.costBasis / p.size →
      ∃ q : Position,
        lookupKey ((applyBuys st now tokenId side slug fills).positions)
            tokenId = some q ∧
        q.costBasis = p.costBasis + (fills.map (fun f => f.1 * f.2)).sum ∧
        q.size = p.size + (fills.map (fun f => f.2)).sum ∧
        q.avgPrice = q.costBasis / q.size := by
  induction fills with
  | nil =>
    intro st p hp havg
    exact ⟨p, by simpa [applyBuys] using hp, by simp, by simp, havg⟩
  | cons f rest ih =>
    intro st p hp _
    have hstep : lookupKey
        ((st.recordBuy now tokenId side f.1 f.2 slug).positions) tokenId =
        some { p with
                avgPrice := (p.costBasis + f.1 * f.2) / (p.size + f.2)
                size := p.size + f.2
                costBasis := p.costBasis + f.1 * f.2 } := by
      simp [TrackerState.recordBuy, hp, recordBuyPos, lookupKey_setKey_self]
    obtain ⟨q, hq, hc, hs, ha⟩ := ih _ _ hstep rfl
    have hq2 : lookupKey ((applyBuys st now tokenId side slug (f :: rest)).positions)
        tokenId = some q := by
      simpa [applyBuys, List.foldl_cons] using hq
    refine ⟨q, hq2, ?_, ?_, ha⟩
    · rw [hc]; simp; ring
    · rw [hs]; simp; ring

/-- C1.  For every sequence of `recordBuy` fills on the same token id,
each with positive price and size, the resulting position's `costBasis`
is `sum(price_i * size_i)` and its `avgPrice` is
`sum(price_i * size_i) / sum(size_i)` (arithmetic modelled exactly over
`ℚ`, hence within floating-point tolerance of the JavaScript run).
Source: `src/unnamed/part_008`, `PositionTracker.recordBuy`. -/
theorem recordBuy_weighted_average (st : TrackerState) (now : ℚ)
    (tokenId : String) (side : Side) (slug : String) (fills : List (ℚ × ℚ))
    (h0 : lookupKey st.positions tokenId = none)
    (hne : fills ≠ [])
    (hpos : ∀ f ∈ fills, 0 < f.1 ∧ 0 < f.2) :
    ∃ q : Position,
      lookupKey ((applyBuys st now tokenId side slug fills).positions)
          tokenId = some q ∧
      q.costBasis = (fills.map (fun f => f.1 * f.2)).sum ∧
      q.size = (fills.map (fun f => f.2)).sum ∧
      q.avgPrice =
        (fills.map (fun f => f.1 * f.2)).sum / (fills.map (fun f => f.2)).sum := by
  cases fills with
  | nil => exact absurd rfl hne
  | cons f rest =>
    have hf2 : 0 < f.2 := (hpos f (List.mem_cons_self _ _)).2
    have hstep : lookupKey
        ((st.recordBuy now tokenId side f.1 f.2 slug).positions) tokenId =
        some { tokenId := tokenId, side := side, avgPrice := f.1, size := f.2
               costBasis := f.1 * f.2, marketSlug := slug, entryTime := now } := by
      simp [TrackerState.recordBuy, h0, recordBuyPos, lookupKey_setKey_self]
    have havg1 : f.1 = (f.1 * f.2) / f.2 := by
      rw [mul_div_assoc, div_self (ne_of_gt hf2), mul_one]
    obtain ⟨q, hq, hc, hs, ha⟩ :=
      applyBuys_lookup_aux now tokenId side slug rest _ _ hstep havg1
    have hq2 : lookupKey ((applyBuys st now tokenId side slug (f :: rest)).positions)
        tokenId = some q := by
      simpa [applyBuys, List.foldl_cons] using hq
    refine ⟨q, hq2, ?_, ?_, ?_⟩
    · rw [hc]; simp
    · rw [hs]; simp
    · rw [ha, hc, hs]; simp

/-- Witness for C1 at a concrete input: two fills
(price 1/2, size 10) then (price 3/4, size 10). -/
theorem recordBuy_weighted_average_witness :
    ∃ q : Position,
      lookupKey ((applyBuys emptyTracker 0 "tok" Side.up "mkt"
          [((1 : ℚ) / 2, (10 : ℚ)), ((3 : ℚ) / 4, (10 : ℚ))]).positions)
          "tok" = some q ∧
      q.costBasis =
        (([((1 : ℚ) / 2, (10 : ℚ)), ((3 : ℚ) / 4, (10 : ℚ))]).map
          (fun f => f.1 * f.2)).sum ∧
      q.size =
        (([((1 : ℚ) / 2, (10 : ℚ)), ((3 : ℚ) / 4, (10 : ℚ))]).map
          (fun f => f.2)).sum ∧
      q.avgPrice =
        (([((1 : ℚ) / 2, (10 : ℚ)), ((3 : ℚ) / 4, (10 : ℚ))]).map
            (fun f => f.1 * f.2)).sum /
        (([((1 : ℚ) / 2, (10 : ℚ)), ((3 : ℚ) / 4, (10 : ℚ))]).map
          (fun f => f.2)).sum :=
  recordBuy_weighted_average emptyTracker 0 "tok" Side.up "mkt" _
    rfl (by simp) (by norm_num)

/-- C2.  Exit priority: whenever the take-profit condition
`bid - avg_price ≥ profit_target` holds (and the bid clears the `0.01`
price guard and the 5-unit size guard), `checkScalpExit` reports
take-profit for that position — with no hypothesis on the hold time, so
this is the reported reason even when `max_hold_duration` has elapsed.
The stop-loss and time-stop branches are only reached when the
profit-check fails (`src/unnamed/part_008`, lines 127–164; arithmetic
modelled exactly over `ℚ`). -/
theorem checkScalpExit_take_profit_priority (cfg : ScalpConfig) (now : ℚ)
    (tokenId : String) (pos : Position) (b : BidQuote)
    (hb : 1 / 100 < b.price)
    (hsz : 5 ≤ min pos.size b.size)
    (htp : cfg.profitTarget ≤ b.price - pos.avgPrice) :
    checkScalpExitPos cfg now tokenId pos (some b) =
      some (ExitReason.takeProfit,
        ⟨tokenId, b.price, ((⌊min pos.size b.size⌋ : ℤ) : ℚ)⟩) := by
  have hfl : ¬ (((⌊min pos.size b.size⌋ : ℤ) : ℚ) < 5) := by
    rw [not_lt]
    exact_mod_cast Int.le_floor.mpr (by exact_mod_cast hsz)
  simp only [checkScalpExitPos]
  rw [if_neg (not_le.mpr hb), if_pos hsz, if_neg hfl, if_pos htp]

/-- Witness for C2: `avg_price = 0.80`, `profit_target = 0.10`,
`stop_loss = 0.06`, bid `0.90`, entry at time 0 and now `10^6` ms with a
45 s hold cap — the maximum hold duration has elapsed, yet the reported
reason is take-profit. -/
theorem checkScalpExit_take_profit_priority_witness :
    ((45000 : ℚ) ≤ 1000000 - 0) ∧
    checkScalpExitPos ⟨1 / 10, 6 / 100, 45000, 100, 10⟩ 1000000 "tok"
        ⟨"tok", Side.up, 4 / 5, 20, 16, "m", 0⟩ (some ⟨9 / 10, 50⟩) =
      some (ExitReason.takeProfit,
        ⟨"tok", 9 / 10, ((⌊min (20 : ℚ) 50⌋ : ℤ) : ℚ)⟩) :=
  ⟨by norm_num,
   checkScalpExit_take_profit_priority ⟨1 / 10, 6 / 100, 45000, 100, 10⟩
     1000000 "tok" ⟨"tok", Side.up, 4 / 5, 20, 16, "m", 0⟩ ⟨9 / 10, 50⟩
     (by norm_num) (by norm_num) (by norm_num)⟩

theorem checkScalpExitPos_some_inv (cfg : ScalpConfig) (now : ℚ)
    (tokenId : String) (pos : Position) (bb : Option BidQuote)
    (r : ExitReason × SellSignal)
    (h : checkScalpExitPos cfg now tokenId pos bb = some r) :
    ∃ b : BidQuote, bb = some b ∧ 1 / 100 < b.price ∧
      5 ≤ min pos.size b.size ∧
      r.2 = ⟨tokenId, b.price, ((⌊min pos.size b.size⌋ : ℤ) : ℚ)⟩ := by
  match bb with
  | none => simp [checkScalpExitPos] at h
  | some b =>
    by_cases h1 : b.price ≤ 1 / 100
    · simp only [checkScalpExitPos] at h
      rw [if_pos h1] at h
      exact Option.noConfusion h
    · by_cases h2 : (5 : ℚ) ≤ min pos.size b.size
      · have hfl : ¬ (((⌊min pos.size b.size⌋ : ℤ) : ℚ) < 5) := by
          rw [not_lt]
          exact_mod_cast Int.le_floor.mpr (by exact_mod_cast h2)
        simp only [checkScalpExitPos] at h
        rw [if_neg h1, if_pos h2, if_neg hfl] at h
        refine ⟨b, rfl, not_le.mp h1, h2, ?_⟩
        split_ifs at h <;>
          first
          | exact Option.noConfusion h
          | rw [← Option.some.inj h]
      · have hz : (if (5 : ℚ) ≤ min pos.size b.size
            then ((⌊min pos.size b.size⌋ : ℤ) : ℚ) else 0) = 0 := if_neg h2
        simp only [checkScalpExitPos] at h
        rw [if_neg h1, hz, if_pos (show (0 : ℚ) < 5 by norm_num)] at h
        exact Option.noConfusion h

/-- C10.  Every signal emitted by `checkScalpExit` comes from a tracked
position whose best bid is present and strictly above `0.01` (so a
position whose quote is absent or collapses to `≤ 0.01` is silently
held), and its size is an integer with
`5 ≤ size ≤ min(position size, best-bid size)`
(`src/unnamed/part_008`, lines 114–124). -/
theorem checkScalpExit_signal_size_bounds (st : TrackerState)
    (cfg : ScalpConfig) (now : ℚ) (bids : List (String × BidQuote))
    (r : ExitReason × SellSignal)
    (hr : r ∈ st.checkScalpExit cfg now bids) :
    ∃ (tokenId : String) (pos : Position) (b : BidQuote),
      (tokenId, pos) ∈ st.positions ∧
      lookupKey bids tokenId = some b ∧
      1 / 100 < b.price ∧
      (∃ n : ℤ, r.2.size = (n : ℚ)) ∧
      5 ≤ r.2.size ∧ r.2.size ≤ pos.size ∧ r.2.size ≤ b.size := by
  obtain ⟨tp, htp, hsome⟩ := List.mem_filterMap.mp hr
  obtain ⟨b, hbb, hbp, hbsz, hsig⟩ := checkScalpExitPos_some_inv _ _ _ _ _ _ hsome
  have hfl : (5 : ℚ) ≤ ((⌊min tp.2.size b.size⌋ : ℤ) : ℚ) := by
    exact_mod_cast Int.le_floor.mpr (by exact_mod_cast hbsz)
  refine ⟨tp.1, tp.2, b, by simpa using htp, by simpa using hbb, hbp,
    ⟨⌊min tp.2.size b.size⌋, by rw [hsig]⟩, ?_, ?_, ?_⟩
  · rw [hsig]; exact hfl
  · rw [hsig]
    exact le_trans (Int.floor_le _) (min_le_left _ _)
  · rw [hsig]
    exact le_trans (Int.floor_le _) (min_le_right _ _)

/-- Witness for C10: a stop-loss signal from a 20-share position against
a 10-share bid at `0.40` has size `10 = min(20, 10)`. -/
theorem checkScalpExit_signal_size_bounds_witness :
    ∃ (tokenId : String) (pos : Position) (b : BidQuote),
      (tokenId, pos) ∈
        (TrackerState.mk [("tok", ⟨"tok", Side.up, 1 / 2, 20, 10, "m", 0⟩)]
          [] []).positions ∧
      lookupKey [("tok", BidQuote.mk (2 / 5) 10)] tokenId = some b ∧
      1 / 100 < b.price ∧
      (∃ n : ℤ,
        ((ExitReason.stopLossHit, SellSignal.mk "tok" (2 / 5) 10)).2.size = (n : ℚ)) ∧
      5 ≤ ((ExitReason.stopLossHit, SellSignal.mk "tok" (2 / 5) 10)).2.size ∧
      ((ExitReason.stopLossHit, SellSignal.mk "tok" (2 / 5) 10)).2.size ≤ pos.size ∧
      ((ExitReason.stopLossHit, SellSignal.mk "tok" (2 / 5) 10)).2.size ≤ b.size :=
  checkScalpExit_signal_size_bounds
    (TrackerState.mk [("tok", ⟨"tok", Side.up, 1 / 2, 20, 10, "m", 0⟩)] [] [])
    ⟨7 / 100, 8 / 100, 120000, 100, 10⟩ 60000
    [("tok", BidQuote.mk (2 / 5) 10)]
    (ExitReason.stopLossHit, SellSignal.mk "tok" (2 / 5) 10)
    (by
      norm_num [TrackerState.checkScalpExit, checkScalpExitPos, lookupKey,
        min_def, List.filterMap])

/-- C3.  While the tracker holds at least one open position
(`hasOpenPosition()` true), the per-market entry phase of the 98C cycle
returns immediately: no reconciliation, no order intent, no change to
the tracker or the pending map, for any market.  Entries can only
resume once every position has closed, since `hasOpenPosition` is the
emptiness test of the global position map
(src/src/runner.ts lines 995–996, 435–436; src/unnamed/part_008
lines 96–98). -/
theorem no_entry_while_position_open (cfg : ScalpConfig) (st : TrackerState)
    (pending : List (String × PendingOrder))
    (slug yesTokenId noTokenId : String)
    (secsLeft upAsk upBid downAsk downBid : ℚ) (rawOrderPrices : List ℚ)
    (orderSizeShares now endMs : ℚ) (matchedOf : String → ℚ)
    (submitOk : Bool) (newOrderId : String)
    (h : st.hasOpenPosition = true) :
    entryPhase98C cfg st pending slug yesTokenId noTokenId secsLeft upAsk upBid
      downAsk downBid rawOrderPrices orderSizeShares now endMs matchedOf
      submitOk newOrderId = ⟨st, pending, []⟩ := by
  simp [entryPhase98C, h]

/-- Witness for C3 at a concrete input: a tracker with one open
position makes the entry phase a no-op. -/
theorem no_entry_while_position_open_witness :
    trackerWithPos.hasOpenPosition = true ∧
    entryPhase98C cfg98 trackerWithPos [] "m" "yes" "no" 120 (49 / 50)
      (97 / 100) (1 / 100) (1 / 100) [98 / 100, 99 / 100] 20 0 300000
      (fun _ => 0) true "oid" = ⟨trackerWithPos, [], []⟩ :=
  ⟨rfl, no_entry_while_position_open cfg98 trackerWithPos [] "m" "yes" "no"
    120 (49 / 50) (97 / 100) (1 / 100) (1 / 100) [98 / 100, 99 / 100] 20 0
    300000 (fun _ => 0) true "oid" rfl⟩

/-- C4 counterexample.  A 20-share position whose best bid shows only
10 shares produces a sell signal of size 10; after the sell retry
budget fails, `recordSell` with that signalled size leaves the position
open with 10 shares — the tracker is NOT always cleared, refuting the
claim at this input (src/src/runner.ts lines 986–992;
src/unnamed/part_008 lines 177–184). -/
theorem sell_failure_force_clear_counterexample :
    trackerC4.checkScalpExit cfg98 60000 [("tokC4", ⟨99 / 100, 10⟩)] =
      [(ExitReason.takeProfit, sigC4)] ∧
    (exitHandleStep trackerC4 sigC4 false).hasOpenPosition = true ∧
    lookupKey (exitHandleStep trackerC4 sigC4 false).positions "tokC4" =
      some { posC4 with size := 10 } := by
  refine ⟨?_, ?_, ?_⟩
  · norm_num [TrackerState.checkScalpExit, checkScalpExitPos, lookupKey,
      trackerC4, posC4, cfg98, sigC4, min_def, List.filterMap_cons,
      List.filterMap_nil]
  · norm_num [exitHandleStep, TrackerState.recordSell,
      TrackerState.hasOpenPosition, lookupKey, setKey, trackerC4, posC4, sigC4]
  · norm_num [exitHandleStep, TrackerState.recordSell, lookupKey, setKey,
      trackerC4, posC4, sigC4]

/-- C4 amended.  After the sell retry budget is exhausted, `recordSell`
is invoked with the signalled size regardless of the sell outcome; this
clears the position exactly when the signalled size covers the position
down to the `0.01` epsilon, and otherwise leaves the residual open
(src/src/runner.ts lines 986–992; src/unnamed/part_008 lines 177–184). -/
theorem sell_retry_exhausted_recordSell (st : TrackerState) (sig : SellSignal)
    (sold : Bool) (pos : Position)
    (hnd : (st.positions.map Prod.fst).Nodup)
    (hp : lookupKey st.positions sig.tokenId = some pos) :
    exitHandleStep st sig sold = st.recordSell sig.tokenId sig.size ∧
    lookupKey (exitHandleStep st sig sold).positions sig.tokenId =
      (if pos.size - sig.size ≤ 1 / 100 then none
       else some { pos with size := pos.size - sig.size }) := by
  have he : exitHandleStep st sig sold = st.recordSell sig.tokenId sig.size := by
    cases sold <;> rfl
  refine ⟨he, ?_⟩
  rw [he]
  simp only [TrackerState.recordSell, hp]
  by_cases hc : pos.size - sig.size ≤ 1 / 100
  · rw [if_pos hc, if_pos hc]
    exact lookupKey_eraseKey_self _ _ hnd
  · rw [if_neg hc, if_neg hc]
    exact lookupKey_setKey_self _ _ _

/-- Witness for the amended C4: selling the full 20 shares does clear
the position. -/
theorem sell_retry_exhausted_recordSell_witness :
    exitHandleStep trackerC4 ⟨"tokC4", 99 / 100, 20⟩ false =
      trackerC4.recordSell "tokC4" 20 ∧
    lookupKey (exitHandleStep trackerC4 ⟨"tokC4", 99 / 100, 20⟩ false).positions
        "tokC4" =
      (if posC4.size - 20 ≤ 1 / 100 then none
       else some { posC4 with size := posC4.size - 20 }) :=
  sell_retry_exhausted_recordSell trackerC4 ⟨"tokC4", 99 / 100, 20⟩ false posC4
    (by simp [trackerC4]) (by simp [trackerC4, lookupKey])

theorem findTradable_some_inv (pending : List (String × PendingOrder))
    (slug : String) (matchedOf : String → ℚ) (p : PendingOrder)
    (h : findTradable pending slug matchedOf = some p) :
    p.slug = slug ∧ 5 ≤ matchedOf p.orderId := by
  induction pending with
  | nil => simp [findTradable] at h
  | cons kp rest ih =>
    obtain ⟨k, q⟩ := kp
    by_cases hs : q.slug = slug
    · by_cases hm : (5 : ℚ) ≤ matchedOf q.orderId
      · simp only [findTradable, if_pos hs, if_pos hm] at h
        exact (Option.some.inj h) ▸ ⟨hs, hm⟩
      · simp only [findTradable, if_pos hs, if_neg hm] at h
        exact ih h
    · simp only [findTradable, if_neg hs] at h
      exact ih h

/-- C5 counterexample.  A 5-share pending order with venue-reported
matched size 4.96 has `matched ≥ 99% · requested` (4.96 ≥ 4.95), so the
claim classifies it `full` and promotes it; the code tests the
`matched ≥ 5` gate first, classifies it `none`, and the reconciliation
loop leaves the tracker and the pending map unchanged
(src/src/runner.ts lines 1039–1067). -/
theorem reconcile_full_classification_counterexample :
    classifyFillClaimed (496 / 100) 5 = FillOutcome.fullFill ∧
    classifyFill (496 / 100) 5 = FillOutcome.noFill ∧
    reconcileLoop emptyTracker 0 [("k5", pC5)] "m" (fun _ => 496 / 100) =
      (emptyTracker, [("k5", pC5)]) := by
  refine ⟨?_, ?_, ?_⟩
  · norm_num [classifyFillClaimed]
  · norm_num [classifyFill]
  · norm_num [reconcileLoop, findTradable, pC5]

/-- C5 amended.  With the `matched ≥ 5` units gate applied first: a
reconciled order is classified `none` (left pending) when
`matched < 5`; otherwise `full` when `matched ≥ 99%` of requested and
`partial_tradable` below that; on `full` or `partial_tradable` the
matched quantity (requested size when full, `⌊matched⌋` when partial)
is promoted into the tracker via `recordBuy` and every pending order of
the same market — the residual order included — is cancelled and
removed (src/src/runner.ts lines 1039–1067). -/
theorem reconcile_promotion_amended (st : TrackerState) (now : ℚ)
    (pending : List (String × PendingOrder)) (slug : String)
    (matchedOf : String → ℚ) (p : PendingOrder)
    (hp : findTradable pending slug matchedOf = some p) :
    (∀ m r : ℚ, classifyFill m r =
      (if m < 5 then FillOutcome.noFill
       else if r * (99 / 100) ≤ m then FillOutcome.fullFill
       else FillOutcome.partTradableFill)) ∧
    5 ≤ matchedOf p.orderId ∧
    classifyFill (matchedOf p.orderId) p.size ≠ FillOutcome.noFill ∧
    reconcileLoop st now pending slug matchedOf =
      (st.recordBuy now p.tokenId p.side p.price
        (if p.size * (99 / 100) ≤ matchedOf p.orderId then p.size
         else ((⌊matchedOf p.orderId⌋ : ℤ) : ℚ)) p.slug,
       pending.filter (fun kp => decide (kp.2.slug ≠ slug))) := by
  obtain ⟨hs, hm⟩ := findTradable_some_inv pending slug matchedOf p hp
  refine ⟨?_, hm, ?_, ?_⟩
  · intro m r
    by_cases h5 : (5 : ℚ) ≤ m
    · rw [if_neg (not_lt.mpr h5)]
      simp [classifyFill, h5]
    · rw [if_pos (not_le.mp h5)]
      simp [classifyFill, h5]
  · intro hcl
    simp only [classifyFill] at hcl
    rw [if_neg (not_not_intro hm)] at hcl
    split_ifs at hcl
  · simp only [reconcileLoop, hp]

/-- Witness for the amended C5: a fully matched 20-share order is
promoted at its requested size and both same-market pendings are
removed. -/
theorem reconcile_promotion_amended_witness :
    (∀ m r : ℚ, classifyFill m r =
      (if m < 5 then FillOutcome.noFill
       else if r * (99 / 100) ≤ m then FillOutcome.fullFill
       else FillOutcome.partTradableFill)) ∧
    (5 : ℚ) ≤ (fun _ : String => (20 : ℚ)) pFull.orderId ∧
    classifyFill ((fun _ : String => (20 : ℚ)) pFull.orderId) pFull.size ≠
      FillOutcome.noFill ∧
    reconcileLoop emptyTracker 0 [("kF", pFull), ("k5", pC5)] "m"
        (fun _ => 20) =
      (emptyTracker.recordBuy 0 pFull.tokenId pFull.side pFull.price
        (if pFull.size * (99 / 100) ≤ (fun _ : String => (20 : ℚ)) pFull.orderId
         then pFull.size
         else ((⌊(fun _ : String => (20 : ℚ)) pFull.orderId⌋ : ℤ) : ℚ))
        pFull.slug,
       ([("kF", pFull), ("k5", pC5)]).filter
         (fun kp => decide (kp.2.slug ≠ "m"))) :=
  reconcile_promotion_amended emptyTracker 0 [("kF", pFull), ("k5", pC5)] "m"
    (fun _ => 20) pFull (by norm_num [findTradable, pFull])

theorem pickPrice_ask985 (l : List ℚ) (h99 : (99 / 100 : ℚ) ∈ l)
    (hall : ∀ p ∈ l, p = 98 / 100 ∨ p = 99 / 100) :
    pickPrice l (985 / 1000) (1 / 2) = some (99 / 100) := by
  induction l with
  | nil => simp at h99
  | cons pr rest ih =>
    rcases hall pr (List.mem_cons_self _ _) with h | h
    · subst h
      have hcond : ¬ ((99 : ℚ) / 100 ≤ 98 / 100) := by norm_num
      have hband : (inBand (985 / 1000) (978 / 1000) (984 / 1000) ||
          inBand (1 / 2) (978 / 1000) (984 / 1000)) = false := by
        norm_num [inBand]
      have h99r : (99 / 100 : ℚ) ∈ rest := by
        rcases List.mem_cons.mp h99 with h | h
        · exact absurd h (by norm_num)
        · exact h
      simp only [pickPrice, if_neg hcond, hband, Bool.false_eq_true, if_false]
      exact ih h99r (fun p hp => hall p (List.mem_cons_of_mem _ hp))
    · subst h
      have hband : (inBand (985 / 1000) (985 / 1000) (9999 / 10000) ||
          inBand (1 / 2) (985 / 1000) (9999 / 10000)) = true := by
        norm_num [inBand]
      simp only [pickPrice, if_pos (le_refl ((99 : ℚ) / 100)), hband, if_true]

theorem pickPrice_ask984 (l : List ℚ) (h98 : (98 / 100 : ℚ) ∈ l)
    (hall : ∀ p ∈ l, p = 98 / 100 ∨ p = 99 / 100) :
    pickPrice l (984 / 1000) (1 / 2) = some (98 / 100) := by
  induction l with
  | nil => simp at h98
  | cons pr rest ih =>
    rcases hall pr (List.mem_cons_self _ _) with h | h
    · subst h
      have hcond : ¬ ((99 : ℚ) / 100 ≤ 98 / 100) := by norm_num
      have hband : (inBand (984 / 1000) (978 / 1000) (984 / 1000) ||
          inBand (1 / 2) (978 / 1000) (984 / 1000)) = true := by
        norm_num [inBand]
      simp only [pickPrice, if_neg hcond, hband, if_true]
    · subst h
      have hband : (inBand (984 / 1000) (985 / 1000) (9999 / 10000) ||
          inBand (1 / 2) (985 / 1000) (9999 / 10000)) = false := by
        norm_num [inBand]
      have h98r : (98 / 100 : ℚ) ∈ rest := by
        rcases List.mem_cons.mp h98 with h | h
        · exact absurd h (by norm_num)
        · exact h
      simp only [pickPrice, if_pos (le_refl ((99 : ℚ) / 100)), hband,
        Bool.false_eq_true, if_false]
      exact ih h98r (fun p hp => hall p (List.mem_cons_of_mem _ hp))

/-- C6.  For any configured price list made of the 0.98 and 0.99
quotes (both present, in either order), an ask of exactly 0.985 matches
the 0.99 band `[0.985, 0.9999]` — not the 0.98 band `[0.978, 0.984]` —
and an ask of 0.984 matches the 0.98 band and is quoted at 0.98
(src/src/runner.ts lines 1025–1035; the neutral bid 0.5 matches no
band). -/
theorem band_matching_boundary (orderPrices : List ℚ)
    (h98 : (98 / 100 : ℚ) ∈ orderPrices)
    (h99 : (99 / 100 : ℚ) ∈ orderPrices)
    (hall : ∀ p ∈ orderPrices, p = 98 / 100 ∨ p = 99 / 100) :
    pickPrice orderPrices (985 / 1000) (1 / 2) = some (99 / 100) ∧
    pickPrice orderPrices (984 / 1000) (1 / 2) = some (98 / 100) :=
  ⟨pickPrice_ask985 orderPrices h99 hall, pickPrice_ask984 orderPrices h98 hall⟩

/-- Witness for C6 with the configured list `[0.98, 0.99]`. -/
theorem band_matching_boundary_witness :
    pickPrice [98 / 100, 99 / 100] (985 / 1000) (1 / 2) = some (99 / 100) ∧
    pickPrice [98 / 100, 99 / 100] (984 / 1000) (1 / 2) = some (98 / 100) :=
  band_matching_boundary [98 / 100, 99 / 100] (by simp) (by simp)
    (fun p hp => by simpa using hp)

/-- C7 counterexample.  A pending order placed with 20 s left that is
still unmatched when 7 s remain: its market is still in the active
window (`0 ≤ 293 < 300`), fewer than 8 s remain, yet the cycle's
cancellation pass keeps it, reconciliation with matched size 0 keeps
it, and the entry phase (inside the last 15 s) changes nothing — no
safety valve cancels it (src/src/runner.ts lines 911–933, 1007–1008;
src/unnamed/part_002 lines 344–345). -/
theorem pending_expiry_safety_valve_counterexample :
    marketInWindow 293 0 300 = true ∧
    ((300 : ℚ) - 293 < 8) ∧
    cancelRoundEndPendings [("k7", p7)] ["m7"] = [("k7", p7)] ∧
    reconcileLoop emptyTracker 293000 [("k7", p7)] "m7" (fun _ => 0) =
      (emptyTracker, [("k7", p7)]) ∧
    entryPhase98C cfg98 emptyTracker [("k7", p7)] "m7" "y" "n" 7 (1 / 2)
      (1 / 2) (1 / 2) (1 / 2) [98 / 100, 99 / 100] 20 293000 300000
      (fun _ => 0) true "nid" = ⟨emptyTracker, [("k7", p7)], []⟩ := by
  refine ⟨by norm_num [marketInWindow], by norm_num, ?_, ?_, ?_⟩
  · norm_num [cancelRoundEndPendings, p7]
  · norm_num [reconcileLoop, findTradable, p7]
  · norm_num [entryPhase98C, TrackerState.hasOpenPosition, emptyTracker]

/-- C7 amended.  A pending order is removed by the cycle's cancellation
pass exactly when its market has left the active set, and a market is
active exactly while `slotStart ≤ now < slotEnd` — so force-cancellation
happens only after the market window ends, with no pre-expiry safety
margin (src/src/runner.ts lines 911–933; src/unnamed/part_002
lines 344–345). -/
theorem pending_cancelled_iff_round_end
    (pending : List (String × PendingOrder)) (activeSlugs : List String)
    (k : String) (p : PendingOrder) :
    ((k, p) ∈ cancelRoundEndPendings pending activeSlugs ↔
      (k, p) ∈ pending ∧ p.slug ∈ activeSlugs) ∧
    (∀ nowSec slotStart slotEnd : ℚ,
      marketInWindow nowSec slotStart slotEnd = true ↔
        slotStart ≤ nowSec ∧ nowSec < slotEnd) := by
  constructor
  · simp [cancelRoundEndPendings, List.mem_filter]
  · intro a b c
    simp [marketInWindow]

/-- C8 (code defect).  The v5 entry gate chain never consults the
secondary Binance reference price: approval is invariant under it, and
at a concrete cycle snapshot where the two reference prices differ by
$20 — far beyond the documented $8
`DUAL_EXCHANGE_DIVERGENCE_THRESHOLD` — while every other gate passes,
the entry is approved anyway (src/src/runner.ts lines 1663–1758;
src/unnamed/part_000 lines 250–268). -/
theorem divergence_veto_not_enforced :
    (∀ (i : EntryGateInputs) (v : Option ℚ),
      trendEntryApproved { i with binanceBtcPrice := v } =
        trendEntryApproved i) ∧
    DUAL_EXCHANGE_DIVERGENCE_THRESHOLD <
      |(100020 : ℚ) - divergedInputs.okxBtcPrice| ∧
    divergedInputs.binanceBtcPrice = some 100020 ∧
    trendEntryApproved divergedInputs = true := by
  refine ⟨?_, ?_, rfl, ?_⟩
  · intro i v
    cases i
    rfl
  · norm_num [divergedInputs, DUAL_EXCHANGE_DIVERGENCE_THRESHOLD]
  · norm_num [trendEntryApproved, divergedInputs, trendOrderSize,
      ensureMinCost, MIN_BTC_DEVIATION, min_def, max_def]

/-- C9 (code defect).  The v5 sell retry loop intends the third (final)
attempt as a FOK order with a further $0.03 price reduction, but
`executeSignal` accepts no order-type argument and posts sells as
`"GTC"`, and the clob layer maps everything except `"GTD"` to GTC — so
the submission that reaches the venue on the final attempt is a resting
GTC order, not FOK (src/src/runner.ts lines 1459–1507;
src/src/execution/executor.ts lines 14–19 and 74–81;
src/src/api/clob.ts lines 262–294). -/
theorem final_sell_attempt_gtc_not_fok :
    intendedSellOrderType 2 = ClobOrderType.FOK ∧
    intendedSellPrice 2 (1 / 2) = max (1 / 100) (1 / 2 - 3 / 100) ∧
    sellPriceStepDown (1 / 2) = max (1 / 100) (1 / 2 - 1 / 100) ∧
    submittedSellOrderType 2 = ClobOrderType.GTC ∧
    clobSubmittedOrderType ClobOrderType.FOK = ClobOrderType.GTC :=
  ⟨rfl, rfl, rfl, rfl, rfl⟩

end PolymarketBot
